import Mathlib

/-!
Formal model of the FajarClaw inference services.

The repository exposes three HTTP microservices wrapping pretrained models:

* `python/embedding_server.py` — BGE-M3 text embedding (dense + sparse vectors);
* `python/reranker_server.py` (request/response half in `Request/Response`) —
  Qwen3 cross-encoder reranking;
* `scripts/visual-embed-server.py` — Qwen3-VL visual/text embedding.

The model-inference calls themselves (`model.encode`, forward passes,
tokenizers) are third-party and opaque; they are represented here as function
parameters (oracles).  Everything the repository's own code does — request
validation, response shaping, sparse-weight conversion, ranking, lazy model
loading with device fallback, health reporting — is embedded faithfully below.
Floating-point values that are only moved around (dense vectors, scores) are
represented by `Int`; the visual service's mean-pool/normalize arithmetic,
where the numbers are actually computed with, is modelled over `ℝ`.
-/

deriving instance DecidableEq for Except

namespace FajarClaw

/-! ## Embedding service (`python/embedding_server.py`) -/

/-- Default model identifier of the embedding service (env `EMBEDDING_MODEL`). -/
def embModelName : String := "BAAI/bge-m3"

/-- One per-text entry of `output["lexical_weights"]` as the handler receives it
from `model.encode`: either a mapping (an object with `.items()`), a dense
`np.ndarray` of per-token weights, or anything else. -/
inductive SparseRep where
  | mapping (entries : List (Int × Int))
  | denseArr (arr : List Int)
  | other
  deriving DecidableEq

/-- Conversion of one raw sparse representation to the `{token_id: weight}`
dict built at `embedding_server.py:146-152`: a mapping is copied entry by
entry; a dense array is reduced to its `np.nonzero` positions; anything else
becomes the empty dict. -/
def convertSparse : SparseRep → List (Int × Int)
  | .mapping entries => entries
  | .denseArr arr => (arr.enum.filter (fun p => p.2 ≠ 0)).map (fun p => ((p.1 : Int), p.2))
  | .other => []

/-- The dictionary returned by `model.encode`: `dense_vecs` always, and
`lexical_weights` when present (`"lexical_weights" in output`). -/
structure EncodeOutput where
  dense_vecs : List (List Int)
  lexical_weights : Option (List SparseRep)
  deriving DecidableEq

/-- Pydantic `EmbedRequest`: input texts plus the sparse-output flag. -/
structure EmbedRequest where
  texts : List String
  return_sparse : Bool
  deriving DecidableEq

/-- Pydantic `EmbedResult`: a dense vector and an optional sparse mapping. -/
structure EmbedResult where
  dense : List Int
  sparse : Option (List (Int × Int))
  deriving DecidableEq

/-- Body of the result-building loop at `embedding_server.py:139-154` for index
`i`: reads `output["dense_vecs"][i]`, and when sparse output was requested and
`lexical_weights` is present also `output["lexical_weights"][i]`.  `none`
models an `IndexError` (an unhandled exception in the handler). -/
def mkResult (returnSparse : Bool) (out : EncodeOutput) (i : Nat) : Option EmbedResult := do
  let d ← out.dense_vecs[i]?
  match returnSparse, out.lexical_weights with
  | true, some lw => do
    let raw ← lw[i]?
    pure { dense := d, sparse := some (convertSparse raw) }
  | _, _ => pure { dense := d, sparse := none }

/-- Outcome of the `/embed` handler: a results list, an `HTTPException(400)`,
an `HTTPException(500)`, or an unhandled exception. -/
inductive EmbedOutcome where
  | ok (results : List EmbedResult)
  | clientError (msg : String)
  | serverError (msg : String)
  | crash
  deriving DecidableEq

/-- Discriminator for the 400 outcome. -/
def EmbedOutcome.isClientError : EmbedOutcome → Bool
  | .clientError _ => true
  | _ => false

/-- Discriminator for the success outcome. -/
def EmbedOutcome.isOk : EmbedOutcome → Bool
  | .ok _ => true
  | _ => false

/-- The results list of a success outcome (empty otherwise). -/
def EmbedOutcome.resultList : EmbedOutcome → List EmbedResult
  | .ok rs => rs
  | _ => []

/-- The `/embed` handler (`embedding_server.py:112-162`), parametrised by the
loaded model's `encode` call.  The second component counts how many times
`encode` was invoked.  Validation rejects an empty list and more than 256
texts before any encode attempt; an encode exception becomes a 500. -/
def embed (encode : List String → Bool → Except String EncodeOutput)
    (req : EmbedRequest) : EmbedOutcome × Nat :=
  if req.texts.isEmpty then (.clientError "texts cannot be empty", 0)
  else if 256 < req.texts.length then (.clientError "max 256 texts per request", 0)
  else
    match encode req.texts req.return_sparse with
    | .error e => (.serverError ("Encoding failed: " ++ e), 1)
    | .ok out =>
      match (List.range req.texts.length).mapM (mkResult req.return_sparse out) with
      | none => (.crash, 1)
      | some results => (.ok results, 1)

/-! ## Reranker service (`python/reranker_server.py` + `Request/Response`) -/

/-- Default model identifier of the reranker service (env `RERANKER_MODEL`). -/
def rerModelName : String := "Qwen/Qwen3-Reranker-0.6B"

/-- The fixed instruction prepended to the query for every candidate pair
(`Request/Response:49`). -/
def rerankInstruction : String :=
  "Instruct: Given a web search query, retrieve relevant passages that answer the query\nQuery: "

/-- Pydantic `Candidate`: text plus opaque optional id and metadata. -/
structure Candidate where
  text : String
  id : Option String
  metadata : Option (List (String × String))
  deriving DecidableEq

/-- Pydantic `RerankRequest` (validation: at most 100 candidates, `top_k`
between 1 and 100, default 5). -/
structure RerankRequest where
  query : String
  candidates : List Candidate
  top_k : Nat
  deriving DecidableEq

/-- Pydantic `RankedResult`. -/
structure RankedResult where
  text : String
  score : Int
  original_index : Nat
  id : Option String
  metadata : Option (List (String × String))
  deriving DecidableEq

/-- The sequential per-pair scoring loop (`Request/Response:50-71`): each
candidate is scored independently by one forward pass on the pair
`(instruction ++ query, candidate.text)`; the tokenizer/model pipeline is the
opaque `score` oracle. -/
def rerankScores (score : String → String → Int) (req : RerankRequest) : List Int :=
  req.candidates.map (fun c => score (rerankInstruction ++ req.query) c.text)

/-- The comes-before relation underlying `indexed_scores.sort(key=lambda x:
x[1], reverse=True)`: `a` may stay before `b` exactly when `b`'s score is at
most `a`'s. -/
def rankRel (a b : Nat × Int) : Prop := b.2 ≤ a.2

instance : DecidableRel rankRel := fun a b => inferInstanceAs (Decidable (b.2 ≤ a.2))

instance : IsTotal (Nat × Int) rankRel := ⟨fun a b => (Int.le_total a.2 b.2).symm⟩

instance : IsTrans (Nat × Int) rankRel := ⟨fun _ _ _ hab hbc => le_trans hbc hab⟩

/-- The ranked-result construction of the `/rerank` handler
(`Request/Response:73-86`): enumerate the scores, sort descending by score
(Python's `list.sort` is a stable sort, and a stable sort by a total preorder
has a unique result, so the stable `insertionSort` computes the same list),
truncate to `top_k`, and rebuild each retained candidate with its score and
original index. -/
def rerank (score : String → String → Int) (req : RerankRequest) : List RankedResult :=
  let indexed := (rerankScores score req).enum
  ((indexed.insertionSort rankRel).take req.top_k).map (fun p =>
    let c := req.candidates.getD p.1 { text := "", id := none, metadata := none }
    { text := c.text, score := p.2, original_index := p.1, id := c.id, metadata := c.metadata })

/-! ## Lazy model loaders and health endpoints

Each loader is embedded as a function from the process globals (the state) to
the new state, together with a count of how many model-construction calls
(`BGEM3FlagModel(...)` / `AutoModel*.from_pretrained(...)`) it performed.
Whether a given construction call would raise is part of the environment. -/

/-- Handle produced by `BGEM3FlagModel(MODEL_NAME, use_fp16=..., device=...)`. -/
structure BGEModel where
  name : String
  use_fp16 : Bool
  device : String
  deriving DecidableEq

/-- Load environment of the embedding service: `useGpu` is
`EMBEDDING_USE_GPU`, and `loadOk fp16 dev` says whether constructing the model
with those arguments raises no exception. -/
structure EmbEnv where
  useGpu : Bool
  loadOk : Bool → String → Bool

/-- Process globals `_model` and `_device` of `embedding_server.py`. -/
structure EmbState where
  model : Option BGEModel
  device : String
  deriving DecidableEq

/-- Initial globals: `_model = None`, `_device = "cpu"`. -/
def embInit : EmbState := ⟨none, "cpu"⟩

/-- The `load_model` of `embedding_server.py:59-85`: return the model at once
when `_model` is already set; otherwise attempt a load on `cuda` when
`EMBEDDING_USE_GPU` else on `cpu`, and on exception fall back to one load with
`use_fp16=False, device="cpu"`.  An exception in the fallback itself
propagates (`.error`).  The second component counts construction attempts. -/
def embLoadModel (env : EmbEnv) (s : EmbState) : Except String (EmbState × BGEModel) × Nat :=
  match s.model with
  | some m => (.ok (s, m), 0)
  | none =>
    let dev := if env.useGpu then "cuda" else "cpu"
    if env.loadOk env.useGpu dev then
      let m : BGEModel := ⟨embModelName, env.useGpu, dev⟩
      (.ok ({ model := some m, device := dev }, m), 1)
    else if env.loadOk false "cpu" then
      let m : BGEModel := ⟨embModelName, false, "cpu"⟩
      (.ok ({ model := some m, device := "cpu" }, m), 2)
    else (.error "load failed", 2)

/-- Embedding `HealthResponse` (`embedding_server.py:102-110`). -/
structure EmbHealth where
  status : String
  model : String
  device : String
  ready : Bool
  deriving DecidableEq

/-- The `/health` handler of the embedding service. -/
def embHealth (s : EmbState) : EmbHealth :=
  ⟨if s.model.isSome then "ok" else "loading", embModelName, s.device, s.model.isSome⟩

/-- Handle produced by the reranker's `from_pretrained` + `.to(device)`;
`halfPrecision` records `dtype=torch.float16 if device == "cuda"`. -/
structure RerModel where
  name : String
  halfPrecision : Bool
  device : String
  deriving DecidableEq

/-- Load environment of the reranker: `RERANKER_USE_GPU`,
`torch.cuda.is_available()`, and whether the tokenizer / model
`from_pretrained` calls raise no exception. -/
structure RerEnv where
  useGpu : Bool
  cudaAvailable : Bool
  tokLoadOk : Bool
  modelLoadOk : Bool

/-- Process globals `model`, `tokenizer`, `device` of `reranker_server.py`. -/
structure RerState where
  model : Option RerModel
  tokenizer : Option String
  device : String
  deriving DecidableEq

/-- Initial globals of the reranker (`reranker_server.py:31-33`). -/
def rerInit : RerState := ⟨none, none, "cpu"⟩

/-- The `load_model` of `reranker_server.py:36-72`: it has no already-loaded
guard and no try/except — on every invocation it re-acquires the device
(`cuda` only when `USE_GPU and torch.cuda.is_available()`), reloads the
tokenizer, then reloads the model; an exception in either `from_pretrained`
propagates.  The count is the number of model-construction attempts. -/
def rerLoadModel (env : RerEnv) (_s : RerState) : Except String RerState × Nat :=
  let dev := if env.useGpu && env.cudaAvailable then "cuda" else "cpu"
  if env.tokLoadOk then
    if env.modelLoadOk then
      (.ok { model := some ⟨rerModelName, dev == "cuda", dev⟩,
             tokenizer := some "qwen3-tokenizer", device := dev }, 1)
    else (.error "model from_pretrained failed", 1)
  else (.error "tokenizer from_pretrained failed", 0)

/-- The call-site guard at the top of `/rerank` (`Request/Response:43-44`):
`load_model()` is invoked only when the global `model` is `None`. -/
def rerankEnsureLoaded (env : RerEnv) (s : RerState) : Except String RerState × Nat :=
  match s.model with
  | some _ => (.ok s, 0)
  | none => rerLoadModel env s

/-- Reranker `HealthResponse` (`Request/Response:29-33`). -/
structure RerHealth where
  ready : Bool
  model : String
  device : String
  status : String
  deriving DecidableEq

/-- The `/health` handler of the reranker (`Request/Response:98-107`). -/
def rerHealth (s : RerState) : RerHealth :=
  ⟨s.model.isSome, rerModelName, s.device,
   if s.model.isSome then "ready" else "model_not_loaded"⟩

/-- Fixed embedding dimension constant `EMBED_DIM` of the visual service. -/
def EMBED_DIM : Nat := 2048

/-- Default model path of the visual service (env `VISUAL_MODEL_PATH`). -/
def visModelPath : String := "models/Qwen3-VL-Embedding-2B"

/-- Handle of `AutoModel.from_pretrained(MODEL_PATH, ...).to(device)`. -/
structure VisModel where
  path : String
  device : String
  deriving DecidableEq

/-- Load environment of the visual service: `torch.cuda.is_available()` and
whether the tokenizer / model loads raise no exception on a given device. -/
structure VisEnv where
  cudaAvailable : Bool
  tokLoadOk : Bool
  modelLoadOk : String → Bool

/-- Process globals `tokenizer`, `model`, `device` of
`visual-embed-server.py` (all initially `None`). -/
structure VisState where
  tokenizer : Option String
  model : Option VisModel
  device : Option String
  deriving DecidableEq

/-- Initial globals of the visual service. -/
def visInit : VisState := ⟨none, none, none⟩

/-- The `load_model` of `visual-embed-server.py:68-89`: no already-loaded
guard and no try/except — it re-acquires the device (`cuda` iff
`torch.cuda.is_available()`), reloads the tokenizer, then reloads the model;
any exception propagates.  The count is the number of model-construction
attempts. -/
def visLoadModel (env : VisEnv) (_s : VisState) : Except String VisState × Nat :=
  let dev := if env.cudaAvailable then "cuda" else "cpu"
  if env.tokLoadOk then
    if env.modelLoadOk dev then
      (.ok { tokenizer := some "qwen3vl-tokenizer", model := some ⟨visModelPath, dev⟩,
             device := some dev }, 1)
    else (.error "model from_pretrained failed", 1)
  else (.error "tokenizer from_pretrained failed", 0)

/-- The JSON object returned by the visual `/health` handler
(`visual-embed-server.py:130-142`): note it has no `ready` field; the loaded
shape carries `dimension` (and a VRAM figure, not modelled), the unloaded
shape an `error` string. -/
structure VisHealth where
  status : String
  model : String
  gpu : Bool
  dimension : Option Nat
  error : Option String
  deriving DecidableEq

/-- The `/health` handler of the visual service. -/
def visHealth (s : VisState) : VisHealth :=
  match s.model with
  | none => ⟨"unhealthy", "Qwen3-VL-Embedding-2B", false, none, some "Not loaded"⟩
  | some _ => ⟨"healthy", "Qwen3-VL-Embedding-2B", s.device == some "cuda", some EMBED_DIM, none⟩

/-! ## Visual embedding pipeline (`visual-embed-server.py:92-99, 155-171`)

The torch arithmetic of `embed_text_impl` — mean over the sequence dimension
of `last_hidden_state`, then `torch.nn.functional.normalize(·, p=2, dim=-1)`
(which divides by `max(‖v‖₂, eps)` with `eps = 1e-12`) — is embedded over `ℝ`,
the idealised semantics of its floating-point computation.  The model forward
pass producing `last_hidden_state` is an opaque parameter. -/

/-- The default `eps` of `torch.nn.functional.normalize`. -/
noncomputable def visEps : ℝ := 1 / 10 ^ 12

/-- Sum of squares of a vector (the square of its L2 norm). -/
def sumSq (v : List ℝ) : ℝ := (v.map fun x => x * x).sum

/-- Model of `torch.nn.functional.normalize(v, p=2, dim=-1)`: divide componentwise by
`max(‖v‖₂, eps)`. -/
noncomputable def l2normalize (v : List ℝ) : List ℝ :=
  let n := max (Real.sqrt (sumSq v)) visEps
  v.map fun x => x / n

/-- Model of `last_hidden_state.mean(dim=1)` for a single-item batch: componentwise sum
of the per-token hidden-state rows divided by the sequence length; `d` is the
model's hidden size. -/
noncomputable def meanPool (hs : List (List ℝ)) (d : Nat) : List ℝ :=
  (hs.foldr (fun v acc => List.zipWith (· + ·) v acc) (List.replicate d 0)).map
    fun x => x / (hs.length : ℝ)

/-- The `embed_text_impl` function (`visual-embed-server.py:92-99`) applied to the model's
`last_hidden_state` rows: mean-pool, then unit-normalize. -/
noncomputable def embed_text_impl (hs : List (List ℝ)) (d : Nat) : List ℝ :=
  l2normalize (meanPool hs d)

/-- A decoded image as the handler sees it: `img.size` plus pixel content
(which `/embed-cross-modal` never reads). -/
structure ImgPix where
  width : Nat
  height : Nat
  pixels : List (Nat × Nat × Nat)
  deriving DecidableEq

/-- Pydantic `EmbedCrossModalRequest`. -/
structure EmbedCrossModalRequest where
  image : String
  text : String
  format : String
  deriving DecidableEq

/-- The combined string built at `visual-embed-server.py:168`:
`f"{req.text} | Screenshot {w}x{h}"`. -/
def crossModalText (text : String) (img : ImgPix) : String :=
  text ++ " | Screenshot " ++ toString img.width ++ "x" ++ toString img.height

/-- Outcome of a visual endpoint: a vector response (with its `dimension`
field), an `HTTPException(400)`, or an `HTTPException(503)`. -/
inductive VisOutcome where
  | ok (vector : List ℝ) (dimension : Nat)
  | clientError (msg : String)
  | unavailable (msg : String)

/-- The `/embed-cross-modal` handler (`visual-embed-server.py:155-171`):
503 if the model is not loaded, 400 if the image fails to decode, otherwise
embed `f"{req.text} | Screenshot {w}x{h}"` through the text pathway.
`decode` stands for `base64.b64decode` + `Image.open(...).convert("RGB")` and
`embedText` for `embed_text_impl` with the loaded model. -/
def embed_cross_modal_endpoint (loaded : Bool) (decode : String → Except String ImgPix)
    (embedText : String → List ℝ) (req : EmbedCrossModalRequest) : VisOutcome :=
  if !loaded then .unavailable "Model not loaded"
  else
    match decode req.image with
    | .error e => .clientError ("Invalid image: " ++ e)
    | .ok img =>
      let v := embedText (crossModalText req.text img)
      .ok v v.length

/-- Concrete image-decoding oracle used to exhibit two images with identical
dimensions but different pixel content. -/
def visDecodeA : String → Except String ImgPix := fun s =>
  if s = "imgA" then .ok ⟨2, 3, [(255, 0, 0)]⟩ else .ok ⟨2, 3, [(0, 0, 255)]⟩

/-- Concrete text-embedding oracle (depends on the input string). -/
noncomputable def visLenEmbed : String → List ℝ := fun s => [(s.length : ℝ)]

/-! ## Theorems -/

/-- Helper: a `mapM` over `Option` whose function succeeds on every element
succeeds, preserves length, and computes pointwise. -/
theorem mapM_some_of_forall {α β : Type} (f : α → Option β) :
    ∀ (xs : List α), (∀ x ∈ xs, (f x).isSome) →
      ∃ ys, xs.mapM f = some ys ∧ ys.length = xs.length
        ∧ ∀ i, i < xs.length → ys[i]? = (xs[i]?).bind f := by
  intro xs
  induction xs with
  | nil =>
    intro _
    exact ⟨[], rfl, rfl, fun i hi => by simp at hi⟩
  | cons a as ih =>
    intro h
    obtain ⟨b, hb⟩ := Option.isSome_iff_exists.mp (h a (List.mem_cons_self a as))
    obtain ⟨ys, hys, hlen, hget⟩ := ih (fun x hx => h x (List.mem_cons_of_mem a hx))
    refine ⟨b :: ys, ?_, by simp [hlen], ?_⟩
    · rw [List.mapM_cons, hb, hys]
      rfl
    · intro i hi
      cases i with
      | zero => simp [hb]
      | succ n =>
        simp only [List.getElem?_cons_succ]
        exact hget n (by simpa using hi)

/-- C1: for a valid `/embed` request (1–256 texts) whose encode call succeeds
and returns per-text outputs (one dense vector per text, and per-text lexical
weights when present), the handler returns a 200 whose results list has
exactly one entry per input text, the `i`-th entry being built from the `i`-th
encode output. -/
theorem embed_one_result_per_text (encode : List String → Bool → Except String EncodeOutput)
    (req : EmbedRequest) (out : EncodeOutput)
    (h1 : 1 ≤ req.texts.length) (h2 : req.texts.length ≤ 256)
    (henc : encode req.texts req.return_sparse = .ok out)
    (hd : out.dense_vecs.length = req.texts.length)
    (hl : ∀ lw, out.lexical_weights = some lw → req.texts.length ≤ lw.length) :
    (embed encode req).1.isOk = true
    ∧ (embed encode req).1.resultList.length = req.texts.length
    ∧ ∀ i, i < req.texts.length →
        ((embed encode req).1.resultList[i]?).map EmbedResult.dense = out.dense_vecs[i]? := by
  have hne : req.texts.isEmpty = false := by
    cases hx : req.texts with
    | nil => rw [hx] at h1; simp at h1
    | cons a l => simp
  have h256 : ¬ 256 < req.texts.length := by omega
  have hsome : ∀ i, i < req.texts.length → (mkResult req.return_sparse out i).isSome := by
    intro i hi
    have hilt : i < out.dense_vecs.length := by omega
    have hdi : out.dense_vecs[i]? = some out.dense_vecs[i] := by
      exact List.getElem?_eq_getElem hilt
    cases hrs : req.return_sparse with
    | false =>
      cases hlw : out.lexical_weights <;> simp [mkResult, hdi, hlw]
    | true =>
      cases hlw : out.lexical_weights with
      | none => simp [mkResult, hdi, hlw]
      | some lw =>
        have hlwi : i < lw.length := by have := hl lw hlw; omega
        have : lw[i]? = some lw[i] := List.getElem?_eq_getElem hlwi
        simp [mkResult, hdi, hlw, this]
  obtain ⟨ys, hys, hlen, hget⟩ :=
    mapM_some_of_forall (mkResult req.return_sparse out) (List.range req.texts.length)
      (fun x hx => hsome x (List.mem_range.mp hx))
  have hembed : embed encode req = (.ok ys, 1) := by
    have hys' : List.mapM.loop (mkResult req.return_sparse out) (List.range req.texts.length) []
        = some ys := hys
    simp [embed, hne, h256, henc, hys, hys']
  refine ⟨by rw [hembed]; rfl, by rw [hembed]; simpa using hlen, ?_⟩
  intro i hi
  rw [hembed]
  have hysi : (EmbedOutcome.ok ys).resultList[i]? = mkResult req.return_sparse out i := by
    have := hget i (by simpa using hi)
    rwa [List.getElem?_range hi, Option.some_bind] at this
  rw [hysi]
  have hilt : i < out.dense_vecs.length := by omega
  have hdi : out.dense_vecs[i]? = some out.dense_vecs[i] := List.getElem?_eq_getElem hilt
  cases hrs : req.return_sparse with
  | false =>
    cases hlw : out.lexical_weights <;> simp [mkResult, hdi, hlw]
  | true =>
    cases hlw : out.lexical_weights with
    | none => simp [mkResult, hdi, hlw]
    | some lw =>
      have hlwi : i < lw.length := by have := hl lw hlw; omega
      have hlwe : lw[i]? = some lw[i] := List.getElem?_eq_getElem hlwi
      simp [mkResult, hdi, hlw, hlwe]

/-- C1 witness: two texts, two dense vectors, one result each in order. -/
theorem embed_one_result_per_text_witness :
    ((["x", "y"] : List String).length = 2)
    ∧ ((embed (fun _ _ => .ok ⟨[[1], [2]], none⟩) ⟨["x", "y"], false⟩).1.isOk = true
      ∧ (embed (fun _ _ => .ok ⟨[[1], [2]], none⟩) ⟨["x", "y"], false⟩).1.resultList.length = 2
      ∧ ∀ i, i < (["x", "y"] : List String).length →
          ((embed (fun _ _ => .ok ⟨[[1], [2]], none⟩)
              ⟨["x", "y"], false⟩).1.resultList[i]?).map EmbedResult.dense
            = (([[1], [2]] : List (List Int)))[i]?) :=
  ⟨rfl,
    embed_one_result_per_text (fun _ _ => .ok ⟨[[1], [2]], none⟩) ⟨["x", "y"], false⟩
      ⟨[[1], [2]], none⟩ (by decide) (by decide) rfl rfl (by intro lw h; cases h)⟩

/-- C7: for every `/embed` request whose texts list is empty or longer than
256, the handler answers with `HTTPException(400)` and the model's `encode` is
never invoked (the encode-call count is 0), whatever the encode oracle does. -/
theorem embed_rejects_invalid_sizes (encode : List String → Bool → Except String EncodeOutput)
    (req : EmbedRequest) (h : req.texts.length = 0 ∨ 256 < req.texts.length) :
    (embed encode req).1.isClientError = true ∧ (embed encode req).2 = 0 := by
  rcases h with h | h
  · have hnil : req.texts = [] := List.length_eq_zero.mp h
    simp [embed, hnil, EmbedOutcome.isClientError]
  · have hne : req.texts.isEmpty = false := by
      cases hx : req.texts with
      | nil => rw [hx] at h; simp at h
      | cons a l => simp
    simp [embed, hne, h, EmbedOutcome.isClientError]

/-- C7 witness: the empty request is rejected with a 400 and zero encode
calls. -/
theorem embed_rejects_invalid_sizes_witness :
    (([] : List String).length = 0 ∨ 256 < ([] : List String).length)
    ∧ (embed (fun _ _ => .error "unused") ⟨[], true⟩).1.isClientError = true
    ∧ (embed (fun _ _ => .error "unused") ⟨[], true⟩).2 = 0 :=
  ⟨Or.inl rfl, embed_rejects_invalid_sizes (fun _ _ => .error "unused") ⟨[], true⟩ (Or.inl rfl)⟩

/-- C2: every `/rerank` response has exactly `min top_k n` entries (where `n`
is the number of candidates), scores non-increasing from first to last, and
pairwise-distinct `original_index` values all below `n`. -/
theorem rerank_shape (score : String → String → Int) (req : RerankRequest)
    (_hk : 1 ≤ req.top_k) (_hc : req.candidates.length ≤ 100) :
    (rerank score req).length = min req.top_k req.candidates.length
    ∧ (rerank score req).Pairwise (fun a b => b.score ≤ a.score)
    ∧ ((rerank score req).map RankedResult.original_index).Nodup
    ∧ ∀ r ∈ rerank score req, r.original_index < req.candidates.length := by
  have hslen : (rerankScores score req).length = req.candidates.length := by
    simp [rerankScores]
  have hsorted := List.sorted_insertionSort rankRel ((rerankScores score req).enum)
  have hperm := List.perm_insertionSort rankRel ((rerankScores score req).enum)
  refine ⟨?_, ?_, ?_, ?_⟩
  · simp [rerank, hslen]
  · exact List.Pairwise.map _ (fun a b hab => hab)
      (List.Pairwise.sublist (List.take_sublist _ _) hsorted)
  · have hmm : (rerank score req).map RankedResult.original_index
        = ((((rerankScores score req).enum.insertionSort rankRel).take req.top_k).map
            Prod.fst) := by
      simp only [rerank, List.map_map]
      rfl
    rw [hmm]
    refine List.Nodup.sublist (List.Sublist.map _ (List.take_sublist _ _)) ?_
    have hp : List.Perm
        ((((rerankScores score req).enum.insertionSort rankRel)).map Prod.fst)
        ((rerankScores score req).enum.map Prod.fst) := hperm.map _
    refine hp.symm.nodup ?_
    rw [List.enum_map_fst]
    exact List.nodup_range _
  · intro r hr
    simp only [rerank, List.mem_map] at hr
    obtain ⟨p, hp, hrp⟩ := hr
    have hpe : p ∈ (rerankScores score req).enum :=
      (List.mem_insertionSort rankRel).mp (List.take_subset _ _ hp)
    rcases p with ⟨i, s⟩
    have := List.mk_mem_enum_iff_getElem?.mp hpe
    have hilt : i < (rerankScores score req).length := by
      rcases List.getElem?_eq_some.mp this with ⟨h, _⟩
      exact h
    rw [← hrp]
    simpa [hslen] using hilt

/-- C2 witness: three candidates, `top_k = 2`, scored by text length. -/
theorem rerank_shape_witness :
    (1 ≤ 2 ∧ ([⟨"bb", none, none⟩, ⟨"a", some "x", none⟩, ⟨"cc", none, none⟩] :
        List Candidate).length ≤ 100)
    ∧ ((rerank (fun _ t => (t.length : Int))
          ⟨"q", [⟨"bb", none, none⟩, ⟨"a", some "x", none⟩, ⟨"cc", none, none⟩], 2⟩).length
          = min 2 3
      ∧ (rerank (fun _ t => (t.length : Int))
          ⟨"q", [⟨"bb", none, none⟩, ⟨"a", some "x", none⟩, ⟨"cc", none, none⟩], 2⟩).Pairwise
          (fun a b => b.score ≤ a.score)
      ∧ ((rerank (fun _ t => (t.length : Int))
          ⟨"q", [⟨"bb", none, none⟩, ⟨"a", some "x", none⟩, ⟨"cc", none, none⟩], 2⟩).map
          RankedResult.original_index).Nodup
      ∧ ∀ r ∈ rerank (fun _ t => (t.length : Int))
          ⟨"q", [⟨"bb", none, none⟩, ⟨"a", some "x", none⟩, ⟨"cc", none, none⟩], 2⟩,
          r.original_index < 3) :=
  ⟨⟨by decide, by decide⟩,
    rerank_shape (fun _ t => (t.length : Int))
      ⟨"q", [⟨"bb", none, none⟩, ⟨"a", some "x", none⟩, ⟨"cc", none, none⟩], 2⟩
      (by decide) (by decide)⟩

/-- Helper: two elements at increasing positions form a two-element sublist. -/
theorem pair_sublist_of_getElem {α : Type} {l : List α} {i j : Nat}
    (hi : i < l.length) (hj : j < l.length) (hij : i < j) :
    List.Sublist [l[i], l[j]] l := by
  have hb1 : i < (l.take (i + 1)).length := by
    rw [List.length_take]
    omega
  have hb2 : j - (i + 1) < (l.drop (i + 1)).length := by
    rw [List.length_drop]
    omega
  have h1 : List.Sublist [l[i]] (l.take (i + 1)) := by
    rw [List.singleton_sublist]
    have he : (l.take (i + 1))[i] = l[i] := List.getElem_take l
    rw [← he]
    exact List.getElem_mem hb1
  have h2 : List.Sublist [l[j]] (l.drop (i + 1)) := by
    rw [List.singleton_sublist]
    have he : (l.drop (i + 1))[j - (i + 1)] = l[j] := by
      rw [List.getElem_drop]
      congr 1
      omega
    rw [← he]
    exact List.getElem_mem hb2
  have := h1.append h2
  rwa [List.take_append_drop] at this

/-- Helper: a two-element sublist from `getElem?` facts at increasing
positions. -/
theorem pair_sublist_of_getElem? {α : Type} {l : List α} {a b : α} {i j : Nat}
    (hij : i < j) (ha : l[i]? = some a) (hb : l[j]? = some b) :
    List.Sublist [a, b] l := by
  obtain ⟨hi, hia⟩ := List.getElem?_eq_some.mp ha
  obtain ⟨hj, hjb⟩ := List.getElem?_eq_some.mp hb
  rw [← hia, ← hjb]
  exact pair_sublist_of_getElem hi hj hij

/-- Helper: a duplicate-free list cannot contain two elements as sublists in
both orders. -/
theorem not_sublist_both_orders {α : Type} {l : List α} (nd : l.Nodup) {a b : α}
    (h1 : List.Sublist [a, b] l) (h2 : List.Sublist [b, a] l) : False := by
  induction l with
  | nil => simp at h1
  | cons c t ih =>
    rw [List.nodup_cons] at nd
    obtain ⟨hc, ndt⟩ := nd
    cases h1 with
    | cons _ h1' =>
      cases h2 with
      | cons _ h2' => exact ih ndt h1' h2'
      | cons₂ _ h2' =>
        exact hc (h1'.subset (by simp))
    | cons₂ _ h1' =>
      cases h2 with
      | cons _ h2' =>
        exact hc (h2'.subset (by simp))
      | cons₂ _ h2' =>
        exact hc (List.singleton_sublist.mp h1')

/-- Helper: stability of the descending sort on an enumerated score list —
if two entries with equal score appear in this order in the sorted list, the
first carries the smaller original index. -/
theorem enum_stable_aux {scores : List Int} {x y : Nat × Int}
    (hx : x ∈ scores.enum) (hy : y ∈ scores.enum)
    (hnd : ((scores.enum).insertionSort rankRel).Nodup)
    (hsub : List.Sublist [x, y] ((scores.enum).insertionSort rankRel))
    (heq : x.2 = y.2) : x.1 < y.1 := by
  obtain ⟨i, s⟩ := x
  obtain ⟨j, t⟩ := y
  simp only at heq ⊢
  rcases Nat.lt_trichotomy i j with h | h | h
  · exact h
  · subst h
    subst heq
    exact (not_sublist_both_orders hnd hsub hsub).elim
  · have h1 := List.mk_mem_enum_iff_getElem?.mp hx
    have h2 := List.mk_mem_enum_iff_getElem?.mp hy
    have hex : scores.enum[i]? = some (i, s) := by
      rw [List.enum_eq_enumFrom, List.getElem?_enumFrom, h1]
      simp
    have hey : scores.enum[j]? = some (j, t) := by
      rw [List.enum_eq_enumFrom, List.getElem?_enumFrom, h2]
      simp
    have hpair : List.Sublist [(j, t), (i, s)] scores.enum :=
      pair_sublist_of_getElem? h hey hex
    have hrel : rankRel (j, t) (i, s) := le_of_eq heq
    have hsub2 := List.pair_sublist_insertionSort hrel hpair
    exact (not_sublist_both_orders hnd hsub hsub2).elim

/-- C4: the descending sort of the `/rerank` handler is stable — whenever two
retained candidates have equal scores, the one with the smaller original index
appears first in the ranked list. -/
theorem rerank_stable_ties (score : String → String → Int) (req : RerankRequest)
    (_hk : 1 ≤ req.top_k) (_hc : req.candidates.length ≤ 100) :
    (rerank score req).Pairwise
      (fun a b => a.score = b.score → a.original_index < b.original_index) := by
  have hndl : ((rerankScores score req).enum).Nodup := by
    refine List.Nodup.of_map Prod.fst ?_
    rw [List.enum_map_fst]
    exact List.nodup_range _
  have hnd : (((rerankScores score req).enum).insertionSort rankRel).Nodup :=
    (List.perm_insertionSort rankRel _).symm.nodup hndl
  have key : (((rerankScores score req).enum).insertionSort rankRel).Pairwise
      (fun p q : Nat × Int => p.2 = q.2 → p.1 < q.1) := by
    rw [List.pairwise_iff_getElem]
    intro i j hi hj hij heq
    have hmi := (List.mem_insertionSort rankRel).mp
      (List.getElem_mem hi :
        ((rerankScores score req).enum.insertionSort rankRel)[i]
          ∈ (rerankScores score req).enum.insertionSort rankRel)
    have hmj := (List.mem_insertionSort rankRel).mp
      (List.getElem_mem hj :
        ((rerankScores score req).enum.insertionSort rankRel)[j]
          ∈ (rerankScores score req).enum.insertionSort rankRel)
    exact enum_stable_aux hmi hmj hnd (pair_sublist_of_getElem hi hj hij) heq
  exact List.Pairwise.map _ (fun a b hab h => hab h)
    (List.Pairwise.sublist (List.take_sublist _ _) key)

/-- C4 witness: two candidates with equal scores (equal text lengths) keep
their original relative order in the ranked list. -/
theorem rerank_stable_ties_witness :
    (1 ≤ 3 ∧ ([⟨"aa", none, none⟩, ⟨"b", none, none⟩, ⟨"cc", none, none⟩] :
        List Candidate).length ≤ 100)
    ∧ (rerank (fun _ t => (t.length : Int))
        ⟨"q", [⟨"aa", none, none⟩, ⟨"b", none, none⟩, ⟨"cc", none, none⟩], 3⟩).Pairwise
        (fun a b => a.score = b.score → a.original_index < b.original_index) :=
  ⟨⟨by decide, by decide⟩,
    rerank_stable_ties (fun _ t => (t.length : Int))
      ⟨"q", [⟨"aa", none, none⟩, ⟨"b", none, none⟩, ⟨"cc", none, none⟩], 3⟩
      (by decide) (by decide)⟩

/-- C3 counterexample: when the model returns an already-sparse mapping
representation containing a zero-weight entry, that entry is copied into the
response unfiltered — the returned sparse mapping for the single text carries
the key 5 with weight 0. -/
theorem embed_sparse_zero_weight_kept :
    embed (fun _ _ => .ok ⟨[[1]], some [.mapping [(5, 0)]]⟩) ⟨["a"], true⟩
      = (.ok [⟨[1], some [(5, 0)]⟩], 1)
    ∧ (0 : Int) ∈ (convertSparse (.mapping [(5, 0)])).map Prod.snd := by
  decide

/-- C3 amended: zero weights are filtered out only in the dense-array branch —
there, every returned entry is non-zero and every non-zero position of the
array is returned — while an already-sparse mapping representation is copied
entry for entry, zero weights included. -/
theorem convertSparse_filters_only_dense (arr : List Int) (entries : List (Int × Int))
    (i : Nat) (hi : i < arr.length) (hz : arr.get ⟨i, hi⟩ ≠ 0) :
    (∀ p ∈ convertSparse (.denseArr arr), p.2 ≠ 0)
    ∧ convertSparse (.mapping entries) = entries
    ∧ ((i : Int), arr.get ⟨i, hi⟩) ∈ convertSparse (.denseArr arr) := by
  refine ⟨?_, rfl, ?_⟩
  · intro p hp
    simp only [convertSparse, List.mem_map, List.mem_filter] at hp
    obtain ⟨q, ⟨_, hq⟩, rfl⟩ := hp
    simpa using hq
  · simp only [convertSparse, List.mem_map, List.mem_filter]
    refine ⟨(i, arr.get ⟨i, hi⟩), ⟨?_, by simpa using hz⟩, rfl⟩
    rw [List.mk_mem_enum_iff_getElem?]
    simp [List.getElem?_eq_getElem hi]

/-- C3 amended witness: on the dense array `[3, 0]` the conversion keeps
exactly the non-zero position 0 and drops the zero; the mapping `[(1, 2)]` is
copied as-is. -/
theorem convertSparse_filters_only_dense_witness :
    (0 : Nat) < ([3, 0] : List Int).length
    ∧ ((∀ p ∈ convertSparse (.denseArr [3, 0]), p.2 ≠ 0)
      ∧ convertSparse (.mapping [(1, 2)]) = [(1, 2)]
      ∧ ((0 : Int), (3 : Int)) ∈ convertSparse (.denseArr [3, 0])) :=
  ⟨by decide, convertSparse_filters_only_dense [3, 0] [(1, 2)] 0 (by decide) (by decide)⟩

/-- C5 counterexample: the visual service's loader is not idempotent once
loaded — invoked in a state whose model is already loaded on `"cuda"`, with
CUDA meanwhile unavailable, it re-acquires the device and performs a fresh
model-construction attempt (count 1, not 0), replacing the state with a
cpu-loaded one. -/
theorem vis_loader_not_idempotent :
    visLoadModel ⟨false, true, fun _ => true⟩
        ⟨some "qwen3vl-tokenizer", some ⟨visModelPath, "cuda"⟩, some "cuda"⟩
      = (.ok ⟨some "qwen3vl-tokenizer", some ⟨visModelPath, "cpu"⟩, some "cpu"⟩, 1)
    ∧ visLoadModel ⟨false, true, fun _ => true⟩
        ⟨some "qwen3vl-tokenizer", some ⟨visModelPath, "cuda"⟩, some "cuda"⟩
      ≠ (.ok ⟨some "qwen3vl-tokenizer", some ⟨visModelPath, "cuda"⟩, some "cuda"⟩, 0) := by
  decide

/-- C5 amended: only the embedding service's loader is idempotent once loaded
(it returns the already-loaded model with zero construction attempts and an
unchanged state); the reranker and visual `load_model` functions perform a
model-construction attempt on every invocation (whenever the tokenizer load
does not raise), their load-once behaviour living at the call sites — the
`/rerank` guard invokes the loader only when the model is `None`. -/
theorem loader_idempotency_split (env1 : EmbEnv) (s1 : EmbState) (m : BGEModel)
    (h1 : s1.model = some m)
    (env2 : RerEnv) (s2 : RerState) (h2 : env2.tokLoadOk = true)
    (env3 : VisEnv) (s3 : VisState) (h3 : env3.tokLoadOk = true) :
    embLoadModel env1 s1 = (.ok (s1, m), 0)
    ∧ (rerLoadModel env2 s2).2 = 1
    ∧ (visLoadModel env3 s3).2 = 1
    ∧ rerankEnsureLoaded env2 { s2 with model := some ⟨rerModelName, false, "cpu"⟩ }
        = (.ok { s2 with model := some ⟨rerModelName, false, "cpu"⟩ }, 0) := by
  refine ⟨?_, ?_, ?_, ?_⟩
  · simp [embLoadModel, h1]
  · cases hcm : env2.modelLoadOk <;> simp [rerLoadModel, h2, hcm]
  · cases hcm : env3.modelLoadOk (if env3.cudaAvailable then "cuda" else "cpu") <;>
      simp [visLoadModel, h3, hcm]
  · rfl

/-- C5 amended witness: concrete loaded/initial states for the three
services. -/
theorem loader_idempotency_split_witness :
    (⟨some ⟨embModelName, true, "cuda"⟩, "cuda"⟩ : EmbState).model
        = some ⟨embModelName, true, "cuda"⟩
    ∧ (⟨true, true, true, true⟩ : RerEnv).tokLoadOk = true
    ∧ (⟨true, true, fun _ => true⟩ : VisEnv).tokLoadOk = true
    ∧ (embLoadModel ⟨true, fun _ _ => true⟩ ⟨some ⟨embModelName, true, "cuda"⟩, "cuda"⟩
        = (.ok (⟨some ⟨embModelName, true, "cuda"⟩, "cuda"⟩, ⟨embModelName, true, "cuda"⟩), 0)
      ∧ (rerLoadModel ⟨true, true, true, true⟩ rerInit).2 = 1
      ∧ (visLoadModel ⟨true, true, fun _ => true⟩ visInit).2 = 1
      ∧ rerankEnsureLoaded ⟨true, true, true, true⟩
          { rerInit with model := some ⟨rerModelName, false, "cpu"⟩ }
          = (.ok { rerInit with model := some ⟨rerModelName, false, "cpu"⟩ }, 0)) :=
  ⟨rfl, rfl, rfl,
    loader_idempotency_split ⟨true, fun _ _ => true⟩ ⟨some ⟨embModelName, true, "cuda"⟩, "cuda"⟩
      ⟨embModelName, true, "cuda"⟩ rfl ⟨true, true, true, true⟩ rerInit rfl
      ⟨true, true, fun _ => true⟩ visInit rfl⟩

/-- C6 counterexample: the visual service never falls back to CPU — with CUDA
available and a model load that raises on `"cuda"` but would succeed on
`"cpu"`, its loader propagates the error after the single GPU attempt. -/
theorem vis_loader_no_cpu_fallback :
    visLoadModel ⟨true, true, fun d => d != "cuda"⟩ visInit
      = (.error "model from_pretrained failed", 1)
    ∧ (⟨true, true, fun d => d != "cuda"⟩ : VisEnv).modelLoadOk "cpu" = true := by
  decide

/-- C6 amended: the GPU-to-CPU exception fallback exists only in the embedding
service — there, a failed first attempt is followed by exactly one
`use_fp16=False, device="cpu"` attempt whose success records device `"cpu"`
and whose failure propagates; in the visual and reranker services any
`from_pretrained` exception propagates immediately with no second attempt
(their only "fallback" is choosing `"cpu"` up front when CUDA is
unavailable). -/
theorem gpu_fallback_only_embedding (env : EmbEnv) (s : EmbState)
    (hs : s.model = none) (hg : env.useGpu = true) (hfail : env.loadOk true "cuda" = false)
    (env3 : VisEnv) (s3 : VisState) (h3tok : env3.tokLoadOk = true)
    (h3cud : env3.cudaAvailable = true) (h3fail : env3.modelLoadOk "cuda" = false)
    (env2 : RerEnv) (s2 : RerState) (h2tok : env2.tokLoadOk = true)
    (h2fail : env2.modelLoadOk = false) :
    (env.loadOk false "cpu" = true →
      embLoadModel env s
        = (.ok (⟨some ⟨embModelName, false, "cpu"⟩, "cpu"⟩, ⟨embModelName, false, "cpu"⟩), 2))
    ∧ (env.loadOk false "cpu" = false → embLoadModel env s = (.error "load failed", 2))
    ∧ visLoadModel env3 s3 = (.error "model from_pretrained failed", 1)
    ∧ rerLoadModel env2 s2 = (.error "model from_pretrained failed", 1) := by
  refine ⟨?_, ?_, ?_, ?_⟩
  · intro hcpu
    simp [embLoadModel, hs, hg, hfail, hcpu]
  · intro hcpu
    simp [embLoadModel, hs, hg, hfail, hcpu]
  · simp [visLoadModel, h3tok, h3cud, h3fail]
  · simp [rerLoadModel, h2tok, h2fail]

/-- C6 amended witness: a load environment failing on the GPU path and
succeeding on CPU exercises the embedding fallback; the visual and reranker
loaders propagate. -/
theorem gpu_fallback_only_embedding_witness :
    (embInit.model = none
      ∧ (⟨true, fun _ d => d != "cuda"⟩ : EmbEnv).loadOk true "cuda" = false
      ∧ (⟨true, fun _ d => d != "cuda"⟩ : EmbEnv).loadOk false "cpu" = true)
    ∧ (((⟨true, fun _ d => d != "cuda"⟩ : EmbEnv).loadOk false "cpu" = true →
        embLoadModel ⟨true, fun _ d => d != "cuda"⟩ embInit
          = (.ok (⟨some ⟨embModelName, false, "cpu"⟩, "cpu"⟩, ⟨embModelName, false, "cpu"⟩), 2))
      ∧ ((⟨true, fun _ d => d != "cuda"⟩ : EmbEnv).loadOk false "cpu" = false →
        embLoadModel ⟨true, fun _ d => d != "cuda"⟩ embInit = (.error "load failed", 2))
      ∧ visLoadModel ⟨true, true, fun _ => false⟩ visInit
          = (.error "model from_pretrained failed", 1)
      ∧ rerLoadModel ⟨true, true, true, false⟩ rerInit
          = (.error "model from_pretrained failed", 1)) :=
  ⟨⟨rfl, rfl, rfl⟩,
    gpu_fallback_only_embedding ⟨true, fun _ d => d != "cuda"⟩ embInit rfl rfl rfl
      ⟨true, true, fun _ => false⟩ visInit rfl rfl rfl
      ⟨true, true, true, false⟩ rerInit rfl rfl⟩

/-- C8 counterexample: in a loaded reranker state the health endpoint reports
`ready = true` but `status = "ready"`, not `"ok"` — no service except the
embedding one ever reports status `"ok"`. -/
theorem rer_health_status_not_ok :
    (rerHealth ⟨some ⟨rerModelName, false, "cpu"⟩, some "qwen3-tokenizer", "cpu"⟩).ready = true
    ∧ (rerHealth ⟨some ⟨rerModelName, false, "cpu"⟩, some "qwen3-tokenizer", "cpu"⟩).status
        ≠ "ok" := by
  decide

/-- C8 amended: every health endpoint separates loaded from not-loaded states,
but with service-specific vocabulary — embedding: `ready` iff loaded, status
`"ok"` iff loaded, else `"loading"`; reranker: `ready` iff loaded, status
`"ready"` iff loaded, else `"model_not_loaded"`; visual: status `"healthy"`
iff loaded, else `"unhealthy"`, with no `ready` field at all. -/
theorem health_reflects_load_state (s1 : EmbState) (s2 : RerState) (s3 : VisState) :
    ((embHealth s1).ready = s1.model.isSome
      ∧ ((embHealth s1).status = "ok" ↔ s1.model.isSome = true)
      ∧ (s1.model.isSome = false → (embHealth s1).status = "loading"))
    ∧ ((rerHealth s2).ready = s2.model.isSome
      ∧ ((rerHealth s2).status = "ready" ↔ s2.model.isSome = true)
      ∧ (s2.model.isSome = false → (rerHealth s2).status = "model_not_loaded"))
    ∧ (((visHealth s3).status = "healthy" ↔ s3.model.isSome = true)
      ∧ (s3.model.isSome = false → (visHealth s3).status = "unhealthy")) := by
  refine ⟨⟨rfl, ?_, ?_⟩, ⟨rfl, ?_, ?_⟩, ?_, ?_⟩
  · cases hm : s1.model <;> simp [embHealth, hm]
  · cases hm : s1.model <;> simp [embHealth, hm]
  · cases hm : s2.model <;> simp [rerHealth, hm]
  · cases hm : s2.model <;> simp [rerHealth, hm]
  · cases hm : s3.model <;> simp [visHealth, hm]
  · cases hm : s3.model <;> simp [visHealth, hm]

/-- Helper: the componentwise-sum fold underlying `meanPool` preserves the
hidden dimension. -/
theorem foldr_zipWith_add_length (hs : List (List ℝ)) (d : Nat)
    (h : ∀ r ∈ hs, r.length = d) :
    (hs.foldr (fun v acc => List.zipWith (· + ·) v acc) (List.replicate d 0)).length = d := by
  induction hs with
  | nil => simp
  | cons v t ih =>
    simp only [List.foldr_cons, List.length_zipWith]
    rw [ih (fun r hr => h r (List.mem_cons_of_mem _ hr)), h v (List.mem_cons_self _ _)]
    exact Nat.min_self d

/-- Helper: `meanPool` produces a vector of the hidden dimension. -/
theorem meanPool_length (hs : List (List ℝ)) (d : Nat) (h : ∀ r ∈ hs, r.length = d) :
    (meanPool hs d).length = d := by
  rw [meanPool, List.length_map]
  exact foldr_zipWith_add_length hs d h

/-- Helper: a sum of squares is non-negative. -/
theorem sumSq_nonneg (v : List ℝ) : 0 ≤ sumSq v := by
  rw [sumSq]
  apply List.sum_nonneg
  intro x hx
  obtain ⟨y, _, rfl⟩ := List.mem_map.mp hx
  exact mul_self_nonneg y

/-- Helper: dividing a vector by `c` divides its sum of squares by `c * c`. -/
theorem sumSq_map_div (v : List ℝ) (c : ℝ) :
    sumSq (v.map fun x => x / c) = sumSq v * (c * c)⁻¹ := by
  rw [sumSq, sumSq, List.map_map]
  have hfun : ((fun x => x * x) ∘ fun x => x / c) = fun x : ℝ => (x * x) * (c * c)⁻¹ := by
    funext x
    simp only [Function.comp_apply]
    rw [div_mul_div_comm, div_eq_mul_inv]
  rw [hfun]
  exact List.sum_map_mul_right v (fun x => x * x) ((c * c)⁻¹)

/-- Helper: normalizing a vector whose L2 norm is at least `eps` yields sum of
squares exactly 1. -/
theorem sumSq_l2normalize {v : List ℝ} (h : visEps ≤ Real.sqrt (sumSq v)) :
    sumSq (l2normalize v) = 1 := by
  have hepspos : (0 : ℝ) < visEps := by
    rw [visEps]
    norm_num
  have hroot : 0 < Real.sqrt (sumSq v) := lt_of_lt_of_le hepspos h
  have hSpos : 0 < sumSq v := Real.sqrt_pos.mp hroot
  have hmax : max (Real.sqrt (sumSq v)) visEps = Real.sqrt (sumSq v) := max_eq_left h
  rw [l2normalize, hmax, sumSq_map_div, Real.mul_self_sqrt (sumSq_nonneg v)]
  rw [← div_eq_mul_inv]
  exact div_self (ne_of_gt hSpos)

/-- C9: the visual text-embedding pathway (used by `/embed-image`,
`/embed-cross-modal` and `/embed-text` alike) mean-pools the hidden-state rows
and unit-normalizes: whenever the model's hidden size is 2048 and the pooled
vector's L2 norm is at least torch's `eps = 1e-12`, the returned vector has
length exactly 2048 and L2 norm exactly 1 (in the idealised real semantics of
the floating-point computation). -/
theorem visual_vector_normalized (hs : List (List ℝ))
    (hrows : ∀ r ∈ hs, r.length = 2048)
    (hnz : visEps ≤ Real.sqrt (sumSq (meanPool hs 2048))) :
    (embed_text_impl hs 2048).length = 2048
    ∧ Real.sqrt (sumSq (embed_text_impl hs 2048)) = 1 := by
  constructor
  · rw [embed_text_impl, l2normalize, List.length_map]
    exact meanPool_length hs 2048 hrows
  · rw [embed_text_impl, sumSq_l2normalize hnz, Real.sqrt_one]

/-- C9 witness: a single all-ones hidden-state row of width 2048. -/
theorem visual_vector_normalized_witness :
    (∀ r ∈ [List.replicate 2048 (1 : ℝ)], r.length = 2048)
    ∧ visEps ≤ Real.sqrt (sumSq (meanPool [List.replicate 2048 (1 : ℝ)] 2048))
    ∧ ((embed_text_impl [List.replicate 2048 (1 : ℝ)] 2048).length = 2048
      ∧ Real.sqrt (sumSq (embed_text_impl [List.replicate 2048 (1 : ℝ)] 2048)) = 1) := by
  have hrows : ∀ r ∈ [List.replicate 2048 (1 : ℝ)], r.length = 2048 := by
    intro r hr
    rw [List.mem_singleton] at hr
    rw [hr, List.length_replicate]
  have hpool : meanPool [List.replicate 2048 (1 : ℝ)] 2048 = List.replicate 2048 (1 : ℝ) := by
    rw [meanPool, List.foldr_cons, List.foldr_nil, List.zipWith_replicate',
      List.map_replicate]
    norm_num
  have hsum : sumSq (List.replicate 2048 (1 : ℝ)) = 2048 := by
    rw [sumSq, List.map_replicate, List.sum_replicate]
    norm_num
  have hnz : visEps ≤ Real.sqrt (sumSq (meanPool [List.replicate 2048 (1 : ℝ)] 2048)) := by
    rw [hpool, hsum]
    have h1 : visEps ≤ 1 := by
      rw [visEps]
      norm_num
    have h2 : (1 : ℝ) ≤ Real.sqrt 2048 := by
      rw [show (1 : ℝ) = Real.sqrt 1 from Real.sqrt_one.symm]
      exact Real.sqrt_le_sqrt (by norm_num)
    linarith
  exact ⟨hrows, hnz, visual_vector_normalized _ hrows hnz⟩

/-- C10: two `/embed-cross-modal` requests with the same text whose images
decode to the same width and height produce the identical combined string and
the identical response — the result depends on the image only through its
dimensions, never through pixel values. -/
theorem cross_modal_pixel_independent (loaded : Bool)
    (decode : String → Except String ImgPix) (embedText : String → List ℝ)
    (r1 r2 : EmbedCrossModalRequest) (img1 img2 : ImgPix)
    (h1 : decode r1.image = .ok img1) (h2 : decode r2.image = .ok img2)
    (ht : r1.text = r2.text) (hw : img1.width = img2.width) (hh : img1.height = img2.height) :
    crossModalText r1.text img1 = crossModalText r2.text img2
    ∧ embed_cross_modal_endpoint loaded decode embedText r1
      = embed_cross_modal_endpoint loaded decode embedText r2 := by
  have hc : crossModalText r1.text img1 = crossModalText r2.text img2 := by
    simp [crossModalText, ht, hw, hh]
  refine ⟨hc, ?_⟩
  cases loaded
  · simp [embed_cross_modal_endpoint]
  · simp [embed_cross_modal_endpoint, h1, h2, hc]

/-- C10 witness: a red 2×3 image and a blue 2×3 image with the same request
text yield the same combined string and the same response. -/
theorem cross_modal_pixel_independent_witness :
    visDecodeA "imgA" = .ok ⟨2, 3, [(255, 0, 0)]⟩
    ∧ visDecodeA "imgB" = .ok ⟨2, 3, [(0, 0, 255)]⟩
    ∧ (crossModalText "hello" ⟨2, 3, [(255, 0, 0)]⟩
         = crossModalText "hello" ⟨2, 3, [(0, 0, 255)]⟩
      ∧ embed_cross_modal_endpoint true visDecodeA visLenEmbed ⟨"imgA", "hello", "png"⟩
         = embed_cross_modal_endpoint true visDecodeA visLenEmbed ⟨"imgB", "hello", "png"⟩) :=
  ⟨by decide, by decide,
    cross_modal_pixel_independent true visDecodeA visLenEmbed
      ⟨"imgA", "hello", "png"⟩ ⟨"imgB", "hello", "png"⟩
      ⟨2, 3, [(255, 0, 0)]⟩ ⟨2, 3, [(0, 0, 255)]⟩
      (by decide) (by decide) rfl rfl rfl⟩

end FajarClaw
